import Mathlib

/-!
Verification of the crm-megacrane backend controllers.

The JavaScript controllers are embedded shallowly:
  * money amounts are rationals (the spec fixes 2-decimal
    round-half-away-from-zero rounding as the semantics of toFixed);
  * a JavaScript number-or-null-or-undefined value is the inductive JVal;
  * optional string/id fields of request bodies are Option String, where
    none models both an absent key and an explicit null (ids are ObjectId
    strings, which are never empty, so JS truthiness on them is isSome);
  * the document store is explicit state passed through each handler,
    and each handler returns the HTTP status code it responds with.
-/

namespace MegaCrane

/-- Round-half-away-from-zero to 2 decimal places; the semantics of
`parseFloat(Number(x).toFixed(2))` used throughout the quotation
controller (per the spec, all monetary outputs use this rounding). -/
def round2 (q : ℚ) : ℚ :=
  if 0 ≤ q then ((⌊q * 100 + 1/2⌋ : ℤ) : ℚ) / 100
  else -(((⌊(-q) * 100 + 1/2⌋ : ℤ) : ℚ) / 100)

/-- A JavaScript number field that can also be null or undefined. -/
inductive JVal where
  | undef : JVal
  | null : JVal
  | num : ℚ → JVal
deriving DecidableEq

/-- JavaScript test `x !== null && x !== undefined`. -/
def JVal.isPresent : JVal → Bool
  | .num _ => true
  | _ => false

/-- JavaScript test `x !== null` (true for undefined!). -/
def JVal.neNull : JVal → Bool
  | .null => false
  | _ => true

/-- Numeric value of a present JVal (0 otherwise; only read under isPresent). -/
def JVal.val : JVal → ℚ
  | .num q => q
  | _ => 0

/-- quotationController.js formatCurrency:
`parseFloat(Number(amount || 0).toFixed(2))`. -/
def formatCurrency (amount : ℚ) : ℚ := round2 amount

/-- A quotation line item; quantity, rate and gstPercentage may be missing
(`(i.quantity || 0)` in the source treats missing as 0). -/
structure LineItem where
  quantity : Option ℚ
  rate : Option ℚ
  gstPercentage : Option ℚ
deriving DecidableEq

/-- quotationController.js calculateSubTotal:
`items.reduce((sum, i) => sum + (i.quantity || 0) * (i.rate || 0), 0)`. -/
def calculateSubTotal (items : List LineItem) : ℚ :=
  items.foldl (fun sum i => sum + (i.quantity.getD 0) * (i.rate.getD 0)) 0

/-- The unrounded accumulator inside calculateTotalGst:
`items.reduce((sum, i) => sum + itemTotal * gstRate, 0)`. -/
def rawTotalGst (items : List LineItem) : ℚ :=
  items.foldl
    (fun sum i => sum + (i.quantity.getD 0) * (i.rate.getD 0) * ((i.gstPercentage.getD 0) / 100)) 0

structure GstBreakdown where
  totalGst : ℚ
  sgst : ℚ
  cgst : ℚ
  igst : ℚ
deriving DecidableEq

/-- quotationController.js calculateTotalGst: splits the raw total GST into
sgst/cgst (intrastate) or igst (interstate) and rounds each output field. -/
def calculateTotalGst (items : List LineItem) (gstType : String) : GstBreakdown :=
  let totalCalculatedGst := rawTotalGst items
  let sgst := if gstType == "intrastate" then totalCalculatedGst / 2 else 0
  let cgst := if gstType == "intrastate" then totalCalculatedGst / 2 else 0
  let igst := if gstType == "interstate" then totalCalculatedGst else 0
  { totalGst := formatCurrency totalCalculatedGst
    sgst := formatCurrency sgst
    cgst := formatCurrency cgst
    igst := formatCurrency igst }

/-- quotationController.js calculateTotal: applies the manual override
precedence and returns `formatCurrency(subTotal + taxToUse)`.  Note the
second branch guard is `manualSgstPercentage !== null || manualCgstPercentage
!== null` in the source, which is also true when those fields are undefined. -/
def calculateTotal (subTotal : ℚ) (gstBreakdown : GstBreakdown) (gstType : String)
    (manualGstAmount manualSgstPercentage manualCgstPercentage manualIgstPercentage : JVal) : ℚ :=
  let taxToUse :=
    if manualGstAmount.isPresent then manualGstAmount.val
    else if gstType == "intrastate" && (manualSgstPercentage.neNull || manualCgstPercentage.neNull) then
      let manualSgstValue :=
        if manualSgstPercentage.isPresent then subTotal * (manualSgstPercentage.val / 100)
        else gstBreakdown.sgst
      let manualCgstValue :=
        if manualCgstPercentage.isPresent then subTotal * (manualCgstPercentage.val / 100)
        else gstBreakdown.cgst
      manualSgstValue + manualCgstValue
    else if gstType == "interstate" && manualIgstPercentage.isPresent then
      subTotal * (manualIgstPercentage.val / 100)
    else gstBreakdown.totalGst
  formatCurrency (subTotal + taxToUse)

/-- C1: whenever manualGstAmount is present (non-null, non-undefined),
calculateTotal uses it as the absolute tax, so the total is
round2(subtotal + manualGstAmount), for every gstType, breakdown and any
manual percentage overrides also supplied. -/
theorem claim_C1 (subTotal : ℚ) (gb : GstBreakdown) (gstType : String) (amount : ℚ)
    (msp mcp mip : JVal) :
    calculateTotal subTotal gb gstType (JVal.num amount) msp mcp mip
      = round2 (subTotal + amount) := by
  simp [calculateTotal, JVal.isPresent, JVal.val, formatCurrency]

/-- The single line item quantity 1, rate 10, gstPercentage 18.1 used to
refute claim C2 below (raw GST 1.81; its rounded halves sum to 1.82). -/
def c2Items : List LineItem := [⟨some 1, some 10, some (181/10)⟩]

/-- C2 (counterexample): with no manual override present (all four fields
undefined) and gstType intrastate, the computed total is NOT
round2(subtotal + rawTotalGst): the guard `manualSgstPercentage !== null`
is true for undefined, so the intrastate branch is taken and the tax used
is round2(raw/2) + round2(raw/2) = 1.82, not the raw 1.81. -/
theorem claim_C2_counterexample :
    calculateTotal (calculateSubTotal c2Items) (calculateTotalGst c2Items "intrastate")
        "intrastate" JVal.undef JVal.undef JVal.undef JVal.undef
      ≠ round2 (calculateSubTotal c2Items + rawTotalGst c2Items) := by
  norm_num [calculateTotal, calculateTotalGst, calculateSubTotal, rawTotalGst,
    formatCurrency, round2, c2Items, JVal.isPresent, JVal.neNull, JVal.val]

/-- C2 (amended): when no manual override field is present, the total is
round2(subtotal + tax) where the tax is the ROUNDED auto figure, not the raw
sum: for intrastate with the sgst/cgst overrides absent (undefined) the tax
is round2(rawTotalGst/2) + round2(rawTotalGst/2) (the undefined overrides
still select the intrastate branch, whose fallbacks are the rounded
breakdown halves); for interstate, and for intrastate with explicit nulls,
the tax is round2(rawTotalGst) (the rounded totalGst field). -/
theorem claim_C2 (items : List LineItem) (subTotal : ℚ) :
    (calculateTotal subTotal (calculateTotalGst items "intrastate") "intrastate"
        JVal.undef JVal.undef JVal.undef JVal.undef
      = round2 (subTotal + (round2 (rawTotalGst items / 2) + round2 (rawTotalGst items / 2))))
    ∧ (calculateTotal subTotal (calculateTotalGst items "interstate") "interstate"
        JVal.undef JVal.undef JVal.undef JVal.undef
      = round2 (subTotal + round2 (rawTotalGst items)))
    ∧ (calculateTotal subTotal (calculateTotalGst items "intrastate") "intrastate"
        JVal.undef JVal.null JVal.null JVal.undef
      = round2 (subTotal + round2 (rawTotalGst items))) := by
  refine ⟨?_, ?_, ?_⟩ <;>
    simp [calculateTotal, calculateTotalGst, formatCurrency, JVal.isPresent, JVal.neNull]

/-- JavaScript `String.prototype.split('-')` on the character list of a
string (used by the create handler on the last quotation number). -/
def splitOnDash (l : List Char) : List (List Char) :=
  match l with
  | [] => [[]]
  | c :: rest =>
    match splitOnDash rest with
    | [] => [[]]
    | seg :: segs => if c = '-' then [] :: seg :: segs else (c :: seg) :: segs

/-- Decimal value of a digit list. -/
def digitsVal (l : List Char) : Nat := l.foldl (fun a c => a * 10 + (c.toNat - '0'.toNat)) 0

/-- JavaScript `parseInt` restricted to the decimal fragment exercised by the
controller: the longest leading digit run is parsed, and none models NaN
(no leading digit).  Radix autodetection (0x...) and sign handling are not
modelled; the claim only concerns all-digit suffixes, where parseInt is
exactly this function. -/
def parseIntLeading (l : List Char) : Option Nat :=
  let ds := l.takeWhile Char.isDigit
  if ds.isEmpty then none else some (digitsVal ds)

/-- `quotationNumber.split('-').pop()`: the segment after the last dash. -/
def lastDashSegment (s : String) : List Char := (splitOnDash s.data).getLastD []

/-- JavaScript `s.padStart(5, '0')`. -/
def padStart5 (s : String) : String :=
  if s.length < 5 then String.mk (List.replicate (5 - s.length) '0') ++ s else s

/-- quotationController.js create, number generation branch: from the
most-recently-created quotation number (none when no quotation exists, or
its stored number is falsy) compute the next number. -/
def autoQuotationNumber (lastNumber : Option String) : String :=
  match lastNumber with
  | some ln =>
    if ln = "" then "Q-00001"
    else
      match parseIntLeading (lastDashSegment ln) with
      | some n => "Q-" ++ padStart5 (toString (n + 1))
      | none => "Q-" ++ padStart5 "NaN"
  | none => "Q-00001"

/-- quotationController.js create: use the caller-supplied quotation number
when truthy, otherwise generate from the last created quotation. -/
def generateQuotationNumber (supplied lastNumber : Option String) : String :=
  match supplied with
  | some s => if s = "" then autoQuotationNumber lastNumber else s
  | none => autoQuotationNumber lastNumber

theorem takeWhile_of_all {p : Char → Bool} :
    ∀ l : List Char, l.all p = true → l.takeWhile p = l := by
  intro l h
  induction l with
  | nil => rfl
  | cons c cs ih =>
    simp only [List.all_cons, Bool.and_eq_true] at h
    simp [List.takeWhile, h.1, ih h.2]

/-- C3: on create, a caller-supplied (non-empty) quotation number is used
verbatim; with no prior quotation the number is Q-00001; and when the last
created quotation number has an all-digit suffix of value n after its last
dash, the generated number is Q- followed by n+1 zero-padded to 5 digits. -/
theorem claim_C3 :
    (∀ (s : String) (last : Option String), s ≠ "" →
      generateQuotationNumber (some s) last = s)
    ∧ generateQuotationNumber none none = "Q-00001"
    ∧ (∀ (ln : String) (n : Nat),
        lastDashSegment ln ≠ [] →
        (lastDashSegment ln).all Char.isDigit = true →
        digitsVal (lastDashSegment ln) = n →
        generateQuotationNumber none (some ln) = "Q-" ++ padStart5 (toString (n + 1))) := by
  refine ⟨?_, rfl, ?_⟩
  · intro s last hs
    simp [generateQuotationNumber, hs]
  · intro ln n h1 h2 h3
    have hln : ln ≠ "" := by
      intro he
      subst he
      simp [lastDashSegment, splitOnDash] at h1
    simp only [generateQuotationNumber, autoQuotationNumber, if_neg hln]
    have htw : (lastDashSegment ln).takeWhile Char.isDigit = lastDashSegment ln :=
      takeWhile_of_all _ h2
    have hne : ((lastDashSegment ln).takeWhile Char.isDigit).isEmpty = false := by
      rw [htw]
      exact List.isEmpty_eq_false.mpr h1
    simp [parseIntLeading, hne, htw, h3, h1]

/-- C3 witness: concrete instances of all three parts. -/
theorem claim_C3_witness :
    generateQuotationNumber (some "CUSTOM-77") (some "Q-00042") = "CUSTOM-77"
    ∧ generateQuotationNumber none none = "Q-00001"
    ∧ generateQuotationNumber none (some "Q-00042") = "Q-00043" :=
  ⟨claim_C3.1 "CUSTOM-77" (some "Q-00042") (by decide),
   claim_C3.2.1,
   by
    have h := claim_C3.2.2 "Q-00042" 42 (by decide) (by decide) (by decide)
    rw [h]; decide⟩

/-- A stored quotation note (text, author, timestamp). Timestamps are
modelled as naturals, with 0 the only falsy value. -/
structure QNote where
  text : String
  author : String
  timestamp : Nat
deriving DecidableEq

/-- An incoming note in an update payload; every field may be missing. -/
structure IncomingNote where
  text : Option String
  author : Option String
  timestamp : Option Nat
deriving DecidableEq

/-- JavaScript truthiness of an optional string (false for absent, null and
the empty string). -/
def jsTruthyS : Option String → Bool
  | some s => s != ""
  | none => false

/-- JavaScript `o || d` for an optional string. -/
def jsOrS (o : Option String) (d : String) : String :=
  match o with
  | some s => if s = "" then d else s
  | none => d

/-- JavaScript `o || d` for an optional numeric timestamp (0 is falsy). -/
def jsOrNat (o : Option Nat) (d : Nat) : Nat :=
  match o with
  | some t => if t = 0 then d else t
  | none => d

/-- quotationController.js update, note push:
`{ text: newNote.text, author: newNote.author || req.user?.name || 'System',
timestamp: newNote.timestamp || new Date() }`. -/
def buildNote (userName : Option String) (now : Nat) (n : IncomingNote) : QNote :=
  { text := n.text.getD ""
    author := jsOrS n.author (jsOrS userName "System")
    timestamp := jsOrNat n.timestamp now }

/-- quotationController.js update, the forEach over updateData.notes: each
incoming note with truthy text is pushed onto the existing list. -/
def mergeNotes (existing : List QNote) (incoming : List IncomingNote)
    (userName : Option String) (now : Nat) : List QNote :=
  match incoming with
  | [] => existing
  | n :: rest =>
      mergeNotes (if jsTruthyS n.text then existing ++ [buildNote userName now n] else existing)
        rest userName now

/-- quotationController.js update, notes handling: the merge runs only when
the payload notes field is a non-empty array; afterwards the notes key is
deleted and the generic merge explicitly skips the notes key, so in every
other case the stored notes are untouched. -/
def quotationUpdateNotes (existingNotes : List QNote) (payloadNotes : Option (List IncomingNote))
    (userName : Option String) (now : Nat) : List QNote :=
  match payloadNotes with
  | some l => if 0 < l.length then mergeNotes existingNotes l userName now else existingNotes
  | none => existingNotes

/-- C9 (counterexample): an update payload with a non-empty notes array whose
single note has empty text appends nothing — the incoming note is dropped by
the `if (newNote.text)` guard, so the result is not the old sequence followed
by the incoming notes. -/
theorem claim_C9_counterexample :
    quotationUpdateNotes [⟨"first", "Alice", 1⟩]
        (some [⟨some "", some "Bob", some 2⟩]) (some "Uma") 9
      = [⟨"first", "Alice", 1⟩]
    ∧ ([⟨some "", some "Bob", some 2⟩] : List IncomingNote).length = 1 := by
  constructor <;> rfl

/-- C9 (amended): on a quotation update carrying a notes array, the stored
sequence becomes the old sequence followed by exactly those incoming notes
whose text is truthy (present and non-empty), each with author defaulting to
the acting user name or System and timestamp defaulting to now; incoming
notes with missing or empty text are discarded, and pre-existing notes are
never removed or replaced. -/
theorem claim_C9 (existing : List QNote) (l : List IncomingNote)
    (userName : Option String) (now : Nat) :
    quotationUpdateNotes existing (some l) userName now
      = existing ++ (l.filter (fun n => jsTruthyS n.text)).map (buildNote userName now) := by
  have key : ∀ (inc : List IncomingNote) (ex : List QNote),
      mergeNotes ex inc userName now
        = ex ++ (inc.filter (fun n => jsTruthyS n.text)).map (buildNote userName now) := by
    intro inc
    induction inc with
    | nil => intro ex; simp [mergeNotes]
    | cons n rest ih =>
      intro ex
      by_cases h : jsTruthyS n.text = true
      · simp [mergeNotes, h, ih, List.filter_cons]
      · simp only [Bool.not_eq_true] at h
        simp [mergeNotes, h, ih, List.filter_cons]
  cases l with
  | nil => simp [quotationUpdateNotes]
  | cons n rest => simpa [quotationUpdateNotes] using key (n :: rest) existing

/-- A stored follow-up entry (on a quotation or an account); fields are set
verbatim from request bodies, so they are all optional. -/
structure FollowUpEntry where
  date : Option Nat
  note : Option String
  status : Option String
  addedBy : Option String
  timestamp : Option Nat
deriving DecidableEq

/-- The body of a follow-up update request. -/
structure FollowUpBody where
  date : Option Nat
  note : Option String
  status : Option String
deriving DecidableEq

/-- quotationController.js updateFollowUp: 404 when the quotation is missing
or no element sits at the index; otherwise set date and note, set status
only when provided, and save. -/
def quotationUpdateFollowUp (doc : Option (List FollowUpEntry)) (index : Nat)
    (b : FollowUpBody) : Nat × Option (List FollowUpEntry) :=
  match doc with
  | none => (404, none)
  | some fus =>
    match fus.get? index with
    | none => (404, some fus)
    | some fu =>
      let fu2 := { fu with
        date := b.date
        note := b.note
        status := match b.status with | some s => some s | none => fu.status }
      (200, some (fus.set index fu2))

/-- quotationController.js deleteFollowUp: 404 when the quotation is missing
or no element sits at the index; otherwise splice the element out. -/
def quotationDeleteFollowUp (doc : Option (List FollowUpEntry)) (index : Nat) :
    Nat × Option (List FollowUpEntry) :=
  match doc with
  | none => (404, none)
  | some fus =>
    match fus.get? index with
    | none => (404, some fus)
    | some _ => (200, some (fus.eraseIdx index))

/-- accountController.js updateFollowUp: like the quotation version but date,
note and status are all set unconditionally. -/
def accountUpdateFollowUp (doc : Option (List FollowUpEntry)) (index : Nat)
    (b : FollowUpBody) : Nat × Option (List FollowUpEntry) :=
  match doc with
  | none => (404, none)
  | some fus =>
    match fus.get? index with
    | none => (404, some fus)
    | some fu =>
      let fu2 := { fu with date := b.date, note := b.note, status := b.status }
      (200, some (fus.set index fu2))

/-- accountController.js deleteFollowUp. -/
def accountDeleteFollowUp (doc : Option (List FollowUpEntry)) (index : Nat) :
    Nat × Option (List FollowUpEntry) :=
  match doc with
  | none => (404, none)
  | some fus =>
    match fus.get? index with
    | none => (404, some fus)
    | some _ => (200, some (fus.eraseIdx index))

/-- C8: a follow-up update or delete addressed at an index at or beyond the
sequence length returns 404 and leaves the follow-up sequence unchanged, on
quotations and on accounts alike. -/
theorem claim_C8 (fus : List FollowUpEntry) (index : Nat) (b : FollowUpBody)
    (h : fus.length ≤ index) :
    quotationUpdateFollowUp (some fus) index b = (404, some fus)
    ∧ quotationDeleteFollowUp (some fus) index = (404, some fus)
    ∧ accountUpdateFollowUp (some fus) index b = (404, some fus)
    ∧ accountDeleteFollowUp (some fus) index = (404, some fus) := by
  have hid : fus[index]? = none := List.getElem?_eq_none h
  refine ⟨?_, ?_, ?_, ?_⟩ <;>
    simp [quotationUpdateFollowUp, quotationDeleteFollowUp,
      accountUpdateFollowUp, accountDeleteFollowUp, hid]

/-- C8 witness: a concrete one-element sequence addressed at index 1. -/
theorem claim_C8_witness :
    quotationUpdateFollowUp (some [⟨some 1, some "call", some "Pending", none, some 1⟩]) 1
        ⟨some 2, some "mail", none⟩
      = (404, some [⟨some 1, some "call", some "Pending", none, some 1⟩])
    ∧ quotationDeleteFollowUp (some [⟨some 1, some "call", some "Pending", none, some 1⟩]) 1
      = (404, some [⟨some 1, some "call", some "Pending", none, some 1⟩])
    ∧ accountUpdateFollowUp (some [⟨some 1, some "call", some "Pending", none, some 1⟩]) 1
        ⟨some 2, some "mail", none⟩
      = (404, some [⟨some 1, some "call", some "Pending", none, some 1⟩])
    ∧ accountDeleteFollowUp (some [⟨some 1, some "call", some "Pending", none, some 1⟩]) 1
      = (404, some [⟨some 1, some "call", some "Pending", none, some 1⟩]) :=
  claim_C8 [⟨some 1, some "call", some "Pending", none, some 1⟩] 1
    ⟨some 2, some "mail", none⟩ (by decide)

/-- The paths declared by businessAccountSchema in models/BusinessAccount.js.
Note that isCustomer is NOT among them: mongoose strict mode (the default)
silently drops any other key assigned by the controllers. -/
def businessAccountSchemaPaths : List String :=
  ["businessName", "contactName", "contactEmail", "contactNumber", "address",
   "sourceType", "assignedTo", "status", "notes", "followUps", "selectedProduct",
   "totalPrice", "zone", "createdAt", "updatedAt", "contactPerson", "typeOfLead",
   "gstNumber", "quotations"]

/-- A stored business account, restricted to the fields the claims are about.
isCustomer is Option Bool: none models the path being absent from the stored
document (which is what mongoose persists, since the schema lacks it). -/
structure AccountDoc where
  businessName : String
  status : String
  isCustomer : Option Bool
  assignedTo : Option String
deriving DecidableEq

/-- A create payload (businessName is schema-required; other required fields
are irrelevant to the claims and omitted). -/
structure AccountPayload where
  businessName : String
  status : Option String
  assignedTo : Option String
deriving DecidableEq

/-- An update payload; every field may be absent. -/
structure AccountUpdatePayload where
  businessName : Option String
  status : Option String
  assignedTo : Option String
deriving DecidableEq

/-- An atom of the regex fragment the duplicate check can build: a literal
character or the dot wildcard. -/
inductive RAtom where
  | lit : Char → RAtom
  | dot : RAtom
deriving DecidableEq

/-- An atom with its quantifier. -/
inductive RPiece where
  | once : RAtom → RPiece
  | plus : RAtom → RPiece
  | star : RAtom → RPiece
  | opt : RAtom → RPiece
deriving DecidableEq

/-- Parse a JavaScript regex body of the fragment reachable from
`new RegExp('^' + businessName + '$', 'i')`: plain characters are literals,
a dot is the wildcard, and a following +, * or ? quantifies the preceding
atom; a backslash escapes the next character to a literal.  Character
classes, groups and alternation are not modelled (none is needed for the
inputs evaluated here). -/
def atomOf (c : Char) : RAtom :=
  if c = '.' then RAtom.dot else RAtom.lit c

def parseRegex : List Char → List RPiece
  | [] => []
  | '\\' :: c :: rest => RPiece.once (RAtom.lit c) :: parseRegex rest
  | c :: '+' :: rest => RPiece.plus (atomOf c) :: parseRegex rest
  | c :: '*' :: rest => RPiece.star (atomOf c) :: parseRegex rest
  | c :: '?' :: rest => RPiece.opt (atomOf c) :: parseRegex rest
  | c :: rest => RPiece.once (atomOf c) :: parseRegex rest

/-- Case-insensitive atom match (the i flag). -/
def amatch (a : RAtom) (c : Char) : Bool :=
  match a with
  | RAtom.dot => true
  | RAtom.lit l => l.toLower == c.toLower

/-- Backtracking whole-string matcher for the parsed pieces (the ^...$
anchors of the constructed pattern make the match a whole-string match).
The fuel argument makes the recursion structural; every step consumes
pattern or input, so pieces + input + 1 steps always suffice. -/
def rmatchF : Nat → List RPiece → List Char → Bool
  | 0, _, _ => false
  | _ + 1, [], [] => true
  | _ + 1, [], _ :: _ => false
  | _ + 1, RPiece.once _ :: _, [] => false
  | f + 1, RPiece.once a :: ps, c :: cs => amatch a c && rmatchF f ps cs
  | _ + 1, RPiece.plus _ :: _, [] => false
  | f + 1, RPiece.plus a :: ps, c :: cs =>
      amatch a c && (rmatchF f ps cs || rmatchF f (RPiece.plus a :: ps) cs)
  | f + 1, RPiece.star _ :: ps, [] => rmatchF f ps []
  | f + 1, RPiece.star a :: ps, c :: cs =>
      rmatchF f ps (c :: cs) || (amatch a c && rmatchF f (RPiece.star a :: ps) cs)
  | f + 1, RPiece.opt _ :: ps, [] => rmatchF f ps []
  | f + 1, RPiece.opt a :: ps, c :: cs =>
      rmatchF f ps (c :: cs) || (amatch a c && rmatchF f ps cs)

/-- `new RegExp('^' + pattern + '$', 'i').test(s)`. -/
def jsRegexWholeCI (pattern : String) (s : String) : Bool :=
  rmatchF (s.data.length + 2 * pattern.data.length + 1) (parseRegex pattern.data) s.data

/-- Plain case-insensitive string equality (what the spec means by a
businessName differing only in letter case). -/
def eqCaseInsensitive (a b : String) : Bool :=
  a.data.map Char.toLower == b.data.map Char.toLower

/-- accountController.js create: findOne on a regex built by splicing the
requested businessName into '^...$' with the i flag; on a hit respond 409
(naming the existing assignee) and persist nothing, otherwise derive
isCustomer from the payload status and save (mongoose keeping only schema
paths, which exclude isCustomer). -/
def accountCreate (store : List AccountDoc) (p : AccountPayload) : Nat × List AccountDoc :=
  match store.find? (fun acc => jsRegexWholeCI p.businessName acc.businessName) with
  | some _ => (409, store)
  | none =>
    let derivedIsCustomer := p.status == some "Customer"
    let doc : AccountDoc :=
      { businessName := p.businessName
        status := p.status.getD "Active"
        isCustomer :=
          if businessAccountSchemaPaths.contains "isCustomer" then some derivedIsCustomer
          else none
        assignedTo := p.assignedTo }
    (201, store ++ [doc])

/-- The assignee surfaced in the 409 conflict message of accountController.js
create (inner none when the existing account has no assigned user). -/
def accountCreateConflictAssignee (store : List AccountDoc) (p : AccountPayload) :
    Option (Option String) :=
  (store.find? (fun acc => jsRegexWholeCI p.businessName acc.businessName)).map
    (fun acc => acc.assignedTo)

/-- accountController.js update: derive isCustomer from the payload status
(absent status compares unequal to Customer, so the derived flag is false),
then findByIdAndUpdate, mongoose stripping undefined values and non-schema
paths from the update. -/
def accountUpdate (doc : AccountDoc) (p : AccountUpdatePayload) : AccountDoc :=
  let derivedIsCustomer := p.status == some "Customer"
  { doc with
    businessName := p.businessName.getD doc.businessName
    status := p.status.getD doc.status
    assignedTo := match p.assignedTo with | some a => some a | none => doc.assignedTo
    isCustomer :=
      if businessAccountSchemaPaths.contains "isCustomer" then some derivedIsCustomer
      else doc.isCustomer }

/-- C6 (code bug): creating an account with status Customer does not leave a
stored isCustomer = true: the controller assigns data.isCustomer, but
businessAccountSchema has no isCustomer path, so the stored document carries
no such flag; moreover an update whose payload omits status leaves status
Customer while deriving the flag from the absent payload field. -/
theorem claim_C6_bug :
    accountCreate [] ⟨"Acme", some "Customer", none⟩
      = (201, [⟨"Acme", "Customer", none, none⟩])
    ∧ (⟨"Acme", "Customer", none, none⟩ : AccountDoc).status = "Customer"
    ∧ (⟨"Acme", "Customer", none, none⟩ : AccountDoc).isCustomer ≠ some true
    ∧ (accountUpdate ⟨"Acme", "Customer", some true, none⟩ ⟨none, none, none⟩).status
        = "Customer" := by
  refine ⟨by decide, rfl, by decide, rfl⟩

/-- C7 (code bug): the businessName is spliced unescaped into the regex, so
a name containing a regex metacharacter defeats the case-insensitive
duplicate check: with an existing account A+B, creating a+b (differing only
in letter case) is accepted with 201 and persisted as a duplicate, even
though for metacharacter-free names (Acme vs ACME) the check does reject
with 409 and surfaces the existing assignee. -/
theorem claim_C7_bug :
    eqCaseInsensitive "a+b" "A+B" = true
    ∧ accountCreate [⟨"A+B", "Active", none, some "userX"⟩] ⟨"a+b", some "Active", none⟩
      = (201, [⟨"A+B", "Active", none, some "userX"⟩, ⟨"a+b", "Active", none, none⟩])
    ∧ accountCreate [⟨"Acme", "Active", none, some "userX"⟩] ⟨"ACME", some "Active", none⟩
      = (409, [⟨"Acme", "Active", none, some "userX"⟩])
    ∧ accountCreateConflictAssignee [⟨"Acme", "Active", none, some "userX"⟩]
        ⟨"ACME", some "Active", none⟩
      = some (some "userX") := by
  refine ⟨by decide, by decide, by decide, by decide⟩

/-- A stored user document (id, role and the (team, department, zone)
reference triple).  Ids model ObjectId strings; body fields use
Option String with none for an absent key or an explicit null (ObjectId
strings are non-empty, so JS truthiness on these fields is isSome). -/
structure OUser where
  id : String
  role : String
  team : Option String
  department : Option String
  zone : Option String
deriving DecidableEq

/-- A stored team document. -/
structure OTeam where
  id : String
  name : Option String
  department : Option String
  teamLeader : Option String
  members : List String
deriving DecidableEq

/-- A stored department document (with its zone reference). -/
structure ODept where
  id : String
  zone : Option String
deriving DecidableEq

/-- The document store visible to the user/team controllers. -/
structure OrgState where
  users : List OUser
  teams : List OTeam
  departments : List ODept
deriving DecidableEq

/-- User.findById. -/
def findUser (st : OrgState) (uid : String) : Option OUser :=
  st.users.find? (fun u => u.id == uid)

/-- Team.findById. -/
def findTeam (st : OrgState) (tid : String) : Option OTeam :=
  st.teams.find? (fun t => t.id == tid)

/-- Department.findById. -/
def findDept (st : OrgState) (did : String) : Option ODept :=
  st.departments.find? (fun d => d.id == did)

/-- team.save(): replace the stored team document with the same id. -/
def saveTeam (st : OrgState) (t : OTeam) : OrgState :=
  { st with teams := st.teams.map (fun v => if v.id == t.id then t else v) }

/-- userController.js updateUserTeamAndDepartmentAndZone: findByIdAndUpdate
setting the team, department and zone paths (JS default parameters turn an
undefined argument into null, modelled by none). -/
def updateUserTeamAndDepartmentAndZone (st : OrgState) (userId : String)
    (teamId departmentId zoneId : Option String) : OrgState :=
  { st with users := st.users.map (fun v =>
      if v.id == userId then { v with team := teamId, department := departmentId, zone := zoneId }
      else v) }

/-- The body of PUT /api/users/transfer/:id. -/
structure TransferBody where
  newDepartmentId : Option String
  newTeamId : Option String
  newZoneId : Option String
deriving DecidableEq

/-- userController.js transferUser step 1: when the user has a team distinct
from the target, remove the user from that team's member list and clear its
leadership if the user led it, saving the team. -/
def transferUnassignOld (st : OrgState) (userId : String) (user : OUser)
    (b : TransferBody) : OrgState :=
  match user.team with
  | some originalTeamId =>
    if b.newTeamId ≠ some originalTeamId then
      match findTeam st originalTeamId with
      | some originalTeam =>
        saveTeam st { originalTeam with
          members := originalTeam.members.filter (fun m => m != userId)
          teamLeader :=
            if originalTeam.teamLeader == some userId then none else originalTeam.teamLeader }
      | none => st
    else st
  | none => st

/-- userController.js transferUser: unassign from the original team, then
validate and join the target team when one is named (400 when it does not
exist — note step 1 has already been saved by then), then write the user's
(team, department, zone) triple; the department is resolved from the target
team when present, else taken from the body, and the zone is always the
body value. -/
def transferUser (st : OrgState) (userId : String) (b : TransferBody) : Nat × OrgState :=
  match findUser st userId with
  | none => (404, st)
  | some user =>
    match b.newTeamId with
    | some newTeamId =>
      match findTeam (transferUnassignOld st userId user b) newTeamId with
      | none => (400, transferUnassignOld st userId user b)
      | some newTeam =>
        let withMember :=
          if userId ∈ newTeam.members then newTeam.members else newTeam.members ++ [userId]
        let newLeader :=
          if user.role == "Team Leader" && newTeam.teamLeader == none then some userId
          else newTeam.teamLeader
        (200, updateUserTeamAndDepartmentAndZone
          (saveTeam (transferUnassignOld st userId user b)
            { newTeam with members := withMember, teamLeader := newLeader })
          userId b.newTeamId newTeam.department b.newZoneId)
    | none =>
      (200, updateUserTeamAndDepartmentAndZone (transferUnassignOld st userId user b)
        userId none b.newDepartmentId b.newZoneId)

theorem findUser_saveTeam (st : OrgState) (x : OTeam) (uid : String) :
    findUser (saveTeam st x) uid = findUser st uid := rfl

theorem find?_map_replaceTeam (x : OTeam) (tid : String) (h : (x.id == tid) = false) :
    ∀ l : List OTeam,
      List.find? (fun t => t.id == tid) (l.map (fun v => if v.id == x.id then x else v))
        = List.find? (fun t => t.id == tid) l := by
  intro l
  induction l with
  | nil => rfl
  | cons v vs ih =>
    by_cases hv : (v.id == x.id) = true
    · have hvx : v.id = x.id := by simpa using hv
      have hvt : (v.id == tid) = false := by simpa [hvx] using h
      simp only [List.map_cons, if_pos hv]
      rw [List.find?_cons_of_neg _ (by simp [h]), List.find?_cons_of_neg _ (by simp [hvt]), ih]
    · simp only [List.map_cons, if_neg hv]
      by_cases hvt : (v.id == tid) = true
      · rw [List.find?_cons_of_pos _ (by exact hvt), List.find?_cons_of_pos _ (by exact hvt)]
      · rw [List.find?_cons_of_neg _ (by exact hvt), List.find?_cons_of_neg _ (by exact hvt), ih]

theorem findTeam_saveTeam_ne (st : OrgState) (x : OTeam) (tid : String) (h : x.id ≠ tid) :
    findTeam (saveTeam st x) tid = findTeam st tid :=
  find?_map_replaceTeam x tid (by simpa using h) st.teams

theorem findUser_unassignOld (st : OrgState) (userId x : String) (user : OUser)
    (b : TransferBody) :
    findUser (transferUnassignOld st userId user b) x = findUser st x := by
  unfold transferUnassignOld
  cases user.team with
  | none => rfl
  | some o =>
    dsimp only
    by_cases h : b.newTeamId ≠ some o
    · rw [if_pos h]
      cases hft : findTeam st o with
      | none => rfl
      | some ot => exact findUser_saveTeam st _ x
    · rw [if_neg h]

theorem find?_map_updateUser (uid : String) (t d z : Option String) :
    ∀ (l : List OUser) (u : OUser),
      List.find? (fun v => v.id == uid) l = some u →
      List.find? (fun v => v.id == uid)
          (l.map (fun v =>
            if v.id == uid then { v with team := t, department := d, zone := z } else v))
        = some { u with team := t, department := d, zone := z } := by
  intro l
  induction l with
  | nil =>
    intro u hu
    simp [List.find?] at hu
  | cons v vs ih =>
    intro u hu
    by_cases hv : (v.id == uid) = true
    · rw [List.find?_cons_of_pos _ (by exact hv)] at hu
      injection hu with hvu
      subst hvu
      simp only [List.map_cons, if_pos hv]
      rw [List.find?_cons_of_pos _ (by exact hv)]
    · rw [List.find?_cons_of_neg _ (by exact hv)] at hu
      simp only [List.map_cons, if_neg hv]
      rw [List.find?_cons_of_neg _ (by exact hv)]
      exact ih u hu

theorem findUser_updateTriple (st : OrgState) (uid : String) (t d z : Option String)
    (u : OUser) (hu : findUser st uid = some u) :
    findUser (updateUserTeamAndDepartmentAndZone st uid t d z) uid
      = some { u with team := t, department := d, zone := z } :=
  find?_map_updateUser uid t d z st.users u hu

/-- C4 (counterexample): transferring the sole member and leader of team A
to a nonexistent team B responds 400, yet team A has already been mutated —
its member list and teamLeader are no longer what they were before the
request, contradicting that no mutation is applied to either entity. -/
def c4State : OrgState :=
  { users := [⟨"u1", "Team Leader", some "A", some "d1", some "z1"⟩]
    teams := [⟨"A", some "Alpha", some "d1", some "u1", ["u1"]⟩]
    departments := [⟨"d1", some "z1"⟩] }

theorem claim_C4_counterexample :
    (transferUser c4State "u1" ⟨none, some "B", none⟩).1 = 400
    ∧ (transferUser c4State "u1" ⟨none, some "B", none⟩).2.teams
        = [⟨"A", some "Alpha", some "d1", none, []⟩]
    ∧ c4State.teams = [⟨"A", some "Alpha", some "d1", some "u1", ["u1"]⟩] := by
  refine ⟨by decide, by decide, by decide⟩

/-- C4 (amended): a transferUser request naming a nonexistent target team
aborts with a 400 validation error before any mutation of the user's own
(team, department, zone) fields — the user document is exactly as before —
but the removal of the user from their original team's member list (and the
clearing of its teamLeader) may already have been persisted by then. -/
theorem claim_C4 (st : OrgState) (uid : String) (b : TransferBody) (t : String) (u : OUser)
    (hb : b.newTeamId = some t) (ht : findTeam st t = none) (hu : findUser st uid = some u) :
    (transferUser st uid b).1 = 400
    ∧ findUser (transferUser st uid b).2 uid = some u := by
  have hst1 : findTeam (transferUnassignOld st uid u b) t = none := by
    unfold transferUnassignOld
    cases hteam : u.team with
    | none => exact ht
    | some o =>
      dsimp only
      by_cases hne : b.newTeamId ≠ some o
      · rw [if_pos hne]
        cases hft : findTeam st o with
        | none => exact ht
        | some ot =>
          have hot : ot.id = o := by
            have := List.find?_some hft
            simpa using this
          have hot2 : ot.id ≠ t := by
            rw [hot]
            intro he
            exact hne (by rw [hb, he])
          dsimp only
          rw [findTeam_saveTeam_ne _ _ _ (by exact hot2)]
          exact ht
      · rw [if_neg hne]
        exact ht
  have heq : transferUser st uid b
      = (400, transferUnassignOld st uid u b) := by
    unfold transferUser
    rw [hu]
    dsimp only
    rw [hb]
    dsimp only
    rw [hst1]
  rw [heq]
  exact ⟨rfl, (findUser_unassignOld st uid uid u b).trans hu⟩

/-- C4 witness: the amended theorem applied to the concrete c4State. -/
theorem claim_C4_witness :
    (transferUser c4State "u1" ⟨none, some "B", none⟩).1 = 400
    ∧ findUser (transferUser c4State "u1" ⟨none, some "B", none⟩).2 "u1"
        = some ⟨"u1", "Team Leader", some "A", some "d1", some "z1"⟩ :=
  claim_C4 c4State "u1" ⟨none, some "B", none⟩ "B"
    ⟨"u1", "Team Leader", some "A", some "d1", some "z1"⟩ rfl (by decide) (by decide)

/-- C10: a transferUser body with newTeamId absent or null succeeds and sets
the user's team to null, department to the caller-supplied newDepartmentId
and zone to the caller-supplied newZoneId (all null when absent) — a body
omitting all three clears the whole triple, whatever team the user had —
and every successful transfer writes the caller-supplied newZoneId verbatim
as the user's zone. -/
theorem transferUser_zone_verbatim (st : OrgState) (uid : String) (b : TransferBody)
    (u : OUser) (hu : findUser st uid = some u) :
    (transferUser st uid b).1 = 200 →
    ∃ u2, findUser (transferUser st uid b).2 uid = some u2 ∧ u2.zone = b.newZoneId := by
  have h1 : findUser (transferUnassignOld st uid u b) uid = some u :=
    (findUser_unassignOld st uid uid u b).trans hu
  unfold transferUser
  rw [hu]
  dsimp only
  cases hbt : b.newTeamId with
  | none =>
    intro _
    exact ⟨_, findUser_updateTriple _ uid none b.newDepartmentId b.newZoneId u h1, rfl⟩
  | some t =>
    dsimp only
    cases hft : findTeam (transferUnassignOld st uid u b) t with
    | none =>
      intro h200
      dsimp only at h200
      exact absurd h200 (by decide)
    | some nt =>
      intro _
      have h2 : findUser (saveTeam (transferUnassignOld st uid u b)
          { nt with
            members := if uid ∈ nt.members then nt.members else nt.members ++ [uid]
            teamLeader :=
              if u.role == "Team Leader" && nt.teamLeader == none then some uid
              else nt.teamLeader }) uid = some u := by
        rw [findUser_saveTeam]
        exact h1
      exact ⟨_, findUser_updateTriple _ uid (some t) nt.department b.newZoneId u h2, rfl⟩

theorem claim_C10 :
    (∀ (st : OrgState) (uid : String) (u : OUser) (dep zone : Option String),
      findUser st uid = some u →
      (transferUser st uid ⟨dep, none, zone⟩).1 = 200
      ∧ findUser (transferUser st uid ⟨dep, none, zone⟩).2 uid
          = some { u with team := none, department := dep, zone := zone })
    ∧ (∀ (st : OrgState) (uid : String) (b : TransferBody),
      (transferUser st uid b).1 = 200 →
      ∃ u2, findUser (transferUser st uid b).2 uid = some u2 ∧ u2.zone = b.newZoneId) := by
  constructor
  · intro st uid u dep zone hu
    have h1 : findUser (transferUnassignOld st uid u ⟨dep, none, zone⟩) uid = some u :=
      (findUser_unassignOld st uid uid u ⟨dep, none, zone⟩).trans hu
    unfold transferUser
    rw [hu]
    exact ⟨rfl, findUser_updateTriple _ uid none dep zone u h1⟩
  · intro st uid b h200
    cases hu : findUser st uid with
    | none =>
      unfold transferUser at h200
      rw [hu] at h200
      dsimp only at h200
      exact absurd h200 (by decide)
    | some u => exact transferUser_zone_verbatim st uid b u hu h200

/-- C10 witness: clearing transfer applied to the concrete state, via the
first part of the theorem, plus a successful team-targeting transfer for the
verbatim-zone part. -/
def c10State : OrgState :=
  { users := [⟨"u7", "Employee", some "T1", some "d1", some "z1"⟩]
    teams := [⟨"T1", some "Tigers", some "d1", none, ["u7"]⟩]
    departments := [⟨"d1", some "z1"⟩] }

theorem claim_C10_witness :
    ((transferUser c10State "u7" ⟨some "d9", none, some "z9"⟩).1 = 200
      ∧ findUser (transferUser c10State "u7" ⟨some "d9", none, some "z9"⟩).2 "u7"
          = some ⟨"u7", "Employee", none, some "d9", some "z9"⟩)
    ∧ ∃ u2, findUser (transferUser c10State "u7" ⟨none, some "T1", some "z5"⟩).2 "u7" = some u2
        ∧ u2.zone = some "z5" :=
  ⟨claim_C10.1 c10State "u7" ⟨"u7", "Employee", some "T1", some "d1", some "z1"⟩
      (some "d9") (some "z9") (by decide),
   claim_C10.2 c10State "u7" ⟨none, some "T1", some "z5"⟩ (by decide)⟩

/-- The body of POST/PUT /api/teams. -/
structure TeamBody where
  name : Option String
  department : Option String
  teamLeader : Option String
  members : Option (List String)
deriving DecidableEq

/-- teamController.js updateUserTeamAndDepartment: same write as the user
controller helper, with the early return on a missing userId. -/
def updateUserTeamAndDepartment (st : OrgState) (userId : Option String)
    (teamId departmentId zoneId : Option String) : OrgState :=
  match userId with
  | none => st
  | some uid =>
    { st with users := st.users.map (fun v =>
        if v.id == uid then { v with team := teamId, department := departmentId, zone := zoneId }
        else v) }

/-- teamController.js createTeam after all validations pass: create the team
document, then assign the leader (when given) and every listed member to the
new team, its department and the department's zone. -/
def createTeamApply (st : OrgState) (newId : String) (b : TeamBody)
    (zoneId : Option String) : Nat × OrgState :=
  let newTeam : OTeam :=
    { id := newId, name := b.name, department := b.department
      teamLeader := b.teamLeader, members := b.members.getD [] }
  let st1 : OrgState := { st with teams := st.teams ++ [newTeam] }
  let st2 :=
    match b.teamLeader with
    | some l => updateUserTeamAndDepartment st1 (some l) (some newId) b.department zoneId
    | none => st1
  let st3 := (b.members.getD []).foldl
    (fun s m => updateUserTeamAndDepartment s (some m) (some newId) b.department zoneId) st2
  (201, st3)

/-- teamController.js createTeam: the department must exist (the team's zone
is resolved from it); a provided teamLeader must exist, have the Team Leader
role and not already lead any team (Team.findOne on teamLeader); each check
failing responds 400 before anything is written. -/
def createTeam (st : OrgState) (newId : String) (b : TeamBody) : Nat × OrgState :=
  match b.department.bind (findDept st) with
  | none => (400, st)
  | some dept =>
    match b.teamLeader with
    | some l =>
      match findUser st l with
      | none => (400, st)
      | some leader =>
        if leader.role ≠ "Team Leader" then (400, st)
        else if (st.teams.find? (fun t2 => t2.teamLeader == some l)).isSome then (400, st)
        else createTeamApply st newId b dept.zone
    | none => createTeamApply st newId b dept.zone

/-- teamController.js updateTeam after all validations pass: write the team
(mongoose strips the undefined name/department, teamLeader is set to the
resolved newLeaderId, members default to []), resolve department and zone,
unassign a replaced leader, assign the new leader, unassign removed members
and (re)assign current members whose stored team/department disagree.
The source compares department ids through toString, which throws for a
missing resolved department; that corrupt-state corner is modelled as plain
Option equality. -/
def updateTeamApply (st : OrgState) (teamId : String) (b : TeamBody)
    (originalTeam : OTeam) : Nat × OrgState :=
  let currentLeaderId := originalTeam.teamLeader
  let newLeaderId := b.teamLeader
  let updatedTeam : OTeam :=
    { originalTeam with
      name := match b.name with | some n => some n | none => originalTeam.name
      department := match b.department with | some d => some d | none => originalTeam.department
      teamLeader := newLeaderId
      members := b.members.getD [] }
  let st0 := saveTeam st updatedTeam
  let resolvedDepartmentId :=
    match b.department with | some d => some d | none => originalTeam.department
  let resolvedZoneId :=
    match (currentLeaderId.bind (findUser st0)).bind (fun u => u.zone) with
    | some z => some z
    | none => (newLeaderId.bind (findUser st0)).bind (fun u => u.zone)
  let st1 :=
    match currentLeaderId with
    | some cl =>
      if some cl ≠ newLeaderId then updateUserTeamAndDepartment st0 (some cl) none none none
      else st0
    | none => st0
  let st2 :=
    match newLeaderId with
    | some nl =>
      updateUserTeamAndDepartment st1 (some nl) (some teamId) resolvedDepartmentId resolvedZoneId
    | none => st1
  let newMemberIds := b.members.getD []
  let st3 := originalTeam.members.foldl
    (fun s m =>
      if m ∈ newMemberIds then s
      else updateUserTeamAndDepartment s (some m) none none none) st2
  let st4 := newMemberIds.foldl
    (fun s m =>
      match findUser s m with
      | none =>
        updateUserTeamAndDepartment s (some m) (some teamId) resolvedDepartmentId resolvedZoneId
      | some mu =>
        if mu.team ≠ some teamId ∨ mu.department ≠ resolvedDepartmentId then
          updateUserTeamAndDepartment s (some m) (some teamId) resolvedDepartmentId resolvedZoneId
        else s) st3
  (200, st4)

/-- teamController.js updateTeam, leader validation: when a new leader is
named and differs from the current one, they must exist, have the Team
Leader role and lead no other team (findOne with _id ≠ this team); each
failure responds 400 before any write. -/
def updateTeamLeaderCheck (st : OrgState) (teamId : String) (b : TeamBody)
    (originalTeam : OTeam) : Nat × OrgState :=
  match b.teamLeader with
  | some nl =>
    if some nl ≠ originalTeam.teamLeader then
      match findUser st nl with
      | none => (400, st)
      | some leader =>
        if leader.role ≠ "Team Leader" then (400, st)
        else if (st.teams.find? (fun t2 => t2.teamLeader == some nl && t2.id != teamId)).isSome
          then (400, st)
        else updateTeamApply st teamId b originalTeam
    else updateTeamApply st teamId b originalTeam
  | none => updateTeamApply st teamId b originalTeam

/-- teamController.js updateTeam: 404 when the team is missing; a provided
department differing from the stored one must exist (a missing stored
department makes the toString comparison throw, answered 400 by the catch);
then the leader validation and the apply phase. -/
def updateTeam (st : OrgState) (teamId : String) (b : TeamBody) : Nat × OrgState :=
  match findTeam st teamId with
  | none => (404, st)
  | some originalTeam =>
    match b.department with
    | some d =>
      match originalTeam.department with
      | none => (400, st)
      | some od =>
        if d ≠ od then
          match findDept st d with
          | none => (400, st)
          | some _ => updateTeamLeaderCheck st teamId b originalTeam
        else updateTeamLeaderCheck st teamId b originalTeam
    | none => updateTeamLeaderCheck st teamId b originalTeam

theorem updateTeamLeaderCheck_conflict (st : OrgState) (teamId : String) (b : TeamBody)
    (ot : OTeam) (l : String) (hl : b.teamLeader = some l)
    (hcur : ot.teamLeader ≠ some l)
    (hex : ∃ t2 ∈ st.teams, t2.id ≠ teamId ∧ t2.teamLeader = some l) :
    updateTeamLeaderCheck st teamId b ot = (400, st) := by
  unfold updateTeamLeaderCheck
  rw [hl]
  dsimp only
  rw [if_pos (by exact fun he => hcur he.symm)]
  cases hfu : findUser st l with
  | none => rfl
  | some leader =>
    dsimp only
    by_cases hrole : leader.role ≠ "Team Leader"
    · rw [if_pos hrole]
    · rw [if_neg hrole]
      have hsome : (st.teams.find? (fun t2 => t2.teamLeader == some l && t2.id != teamId)).isSome = true := by
        rcases hex with ⟨t2, ht2mem, ht2ne, ht2lead⟩
        exact List.find?_isSome.mpr ⟨t2, ht2mem, by simp [ht2lead, ht2ne]⟩
      rw [if_pos (by exact hsome)]

/-- C5: a create-team request, and an update-team request naming a leader
other than the team's current one, whose candidate already leads another
team are rejected with 400 and leave the whole store (every team and user
document) unchanged. -/
theorem claim_C5 :
    (∀ (st : OrgState) (newId : String) (b : TeamBody) (l : String),
      b.teamLeader = some l →
      (∃ t2 ∈ st.teams, t2.teamLeader = some l) →
      createTeam st newId b = (400, st))
    ∧ (∀ (st : OrgState) (teamId : String) (b : TeamBody) (l : String) (ot : OTeam),
      b.teamLeader = some l →
      findTeam st teamId = some ot →
      ot.teamLeader ≠ some l →
      (∃ t2 ∈ st.teams, t2.id ≠ teamId ∧ t2.teamLeader = some l) →
      updateTeam st teamId b = (400, st)) := by
  constructor
  · intro st newId b l hl hex
    unfold createTeam
    cases hd : b.department.bind (findDept st) with
    | none => rfl
    | some dept =>
      dsimp only
      rw [hl]
      dsimp only
      cases hfu : findUser st l with
      | none => rfl
      | some leader =>
        dsimp only
        by_cases hrole : leader.role ≠ "Team Leader"
        · rw [if_pos hrole]
        · rw [if_neg hrole]
          have hsome : (st.teams.find? (fun t2 => t2.teamLeader == some l)).isSome = true := by
            rcases hex with ⟨t2, ht2mem, ht2lead⟩
            exact List.find?_isSome.mpr ⟨t2, ht2mem, by simp [ht2lead]⟩
          rw [if_pos (by exact hsome)]
  · intro st teamId b l ot hl hfo hcur hex
    unfold updateTeam
    rw [hfo]
    dsimp only
    cases hbd : b.department with
    | none => exact updateTeamLeaderCheck_conflict st teamId b ot l hl hcur hex
    | some d =>
      dsimp only
      cases hod : ot.department with
      | none => rfl
      | some od =>
        dsimp only
        by_cases hdo : d ≠ od
        · rw [if_pos hdo]
          cases hfd : findDept st d with
          | none => rfl
          | some dept =>
            exact updateTeamLeaderCheck_conflict st teamId b ot l hl hcur hex
        · rw [if_neg hdo]
          exact updateTeamLeaderCheck_conflict st teamId b ot l hl hcur hex

/-- C5 witness: user u2 leads team A; naming u2 as leader while creating
team C, or while updating team B, yields 400 with the store unchanged. -/
def c5State : OrgState :=
  { users := [⟨"u2", "Team Leader", some "A", some "d1", some "z1"⟩]
    teams := [⟨"A", some "Alpha", some "d1", some "u2", []⟩,
              ⟨"B", some "Beta", some "d1", none, []⟩]
    departments := [⟨"d1", some "z1"⟩] }

theorem claim_C5_witness :
    createTeam c5State "C" ⟨some "Gamma", some "d1", some "u2", none⟩ = (400, c5State)
    ∧ updateTeam c5State "B" ⟨none, none, some "u2", none⟩ = (400, c5State) :=
  ⟨claim_C5.1 c5State "C" ⟨some "Gamma", some "d1", some "u2", none⟩ "u2" rfl
      ⟨⟨"A", some "Alpha", some "d1", some "u2", []⟩, by decide, by decide⟩,
   claim_C5.2 c5State "B" ⟨none, none, some "u2", none⟩ "u2"
      ⟨"B", some "Beta", some "d1", none, []⟩ rfl (by decide) (by decide)
      ⟨⟨"A", some "Alpha", some "d1", some "u2", []⟩, by decide, by decide, by decide⟩⟩

end MegaCrane
